import Mathlib

/-!
Verification of the outbound request-execution pipeline of the
mcp-ovh-webhosting server: error taxonomy (src/ovh/errors.ts), the three
credential strategies (AK/AS/CK signing, OAuth2 client credentials with
token caching, bearer passthrough), the request executor and retry
controller (src/ovh/client.ts), and the token-bucket rate limiter
(src/utils/rateLimiter.ts).

All definitions are shallow embeddings of the TypeScript source.  JavaScript
platform primitives that cannot themselves be embedded (the global
`JSON.parse`, `fetch`, `Date.now`, `setTimeout`) are made explicit
parameters: the outcome of each network call or parse is passed in, and the
theorems quantify over those outcomes.
-/

namespace OvhSpec

/-! ## Error taxonomy — src/ovh/errors.ts (part_008)

The `McpErrorCode` enum and the mapping from HTTP status codes to
normalized MCP codes plus a `retryable` flag. -/

/-- The `McpErrorCode` enum of errors.ts. -/
inductive McpErrorCode where
  | INVALID_PARAMS
  | INTERNAL_ERROR
  | RESOURCE_NOT_FOUND
  | PERMISSION_DENIED
  | RATE_LIMITED
  | SERVICE_UNAVAILABLE
deriving DecidableEq, Repr

/-- Numeric value of each `McpErrorCode` enum member. -/
def McpErrorCode.code : McpErrorCode → Int
  | .INVALID_PARAMS => -32602
  | .INTERNAL_ERROR => -32603
  | .RESOURCE_NOT_FOUND => -32001
  | .PERMISSION_DENIED => -32002
  | .RATE_LIMITED => -32003
  | .SERVICE_UNAVAILABLE => -32004

/-- The `OvhErrorResponse` interface: shape of a structured OVH error body.
The source field `class` is a Lean keyword and is rendered `errClass`. -/
structure OvhErrorResponse where
  errClass : Option String
  message : Option String
  errorCode : Option String
  httpCode : Option String
  queryId : Option String
deriving DecidableEq, Repr

/-- The `OvhApiError` value: message, HTTP status, optional remote error
code, normalized MCP code and retryability.  The `cause` chain carries no
behaviour and is not modelled. -/
structure OvhApiError where
  message : String
  httpStatus : Nat
  ovhErrorCode : Option String
  mcpErrorCode : McpErrorCode
  retryable : Bool
deriving DecidableEq, Repr

/-- JavaScript truthiness of a `string | undefined` value: `undefined` and
the empty string are falsy. -/
def jsTruthyStr : Option String → Bool
  | none => false
  | some s => s ≠ ""

/-- JavaScript `a || b` on `string | undefined` operands. -/
def jsOrStr (a b : Option String) : Option String :=
  if jsTruthyStr a then a else b

/-- JavaScript `a || fallback` where `fallback` is a string literal. -/
def jsStrOr (a : Option String) (fallback : String) : String :=
  match jsOrStr a (some fallback) with
  | some s => s
  | none => fallback

/-- `mapHttpStatusToMcp` of errors.ts: maps an HTTP status to a normalized
MCP error code and a retryable flag.  The `ovhErrorCode` argument is
accepted and ignored, as in the source. -/
def mapHttpStatusToMcp (httpStatus : Nat) (ovhErrorCode : Option String) :
    McpErrorCode × Bool :=
  if 400 ≤ httpStatus ∧ httpStatus < 500 then
    if httpStatus = 400 then (.INVALID_PARAMS, false)
    else if httpStatus = 401 ∨ httpStatus = 403 then (.PERMISSION_DENIED, false)
    else if httpStatus = 404 then (.RESOURCE_NOT_FOUND, false)
    else if httpStatus = 429 then (.RATE_LIMITED, true)
    else (.INVALID_PARAMS, false)
  else if 500 ≤ httpStatus then
    if httpStatus = 503 then (.SERVICE_UNAVAILABLE, true)
    else (.INTERNAL_ERROR, true)
  else (.INTERNAL_ERROR, false)

/-- `createHttpError` of errors.ts: generic error for a non-JSON body. -/
def createHttpError (httpStatus : Nat) (message : String) : OvhApiError :=
  let mr := mapHttpStatusToMcp httpStatus none
  ⟨if message = "" then "Erreur HTTP " ++ toString httpStatus else message,
   httpStatus, none, mr.1, mr.2⟩

/-- The `string | OvhErrorResponse` union accepted by `parseOvhError`. -/
inductive ResponseBody where
  | str (raw : String)
  | structured (e : OvhErrorResponse)
deriving DecidableEq, Repr

/-- The structured-body branch of `parseOvhError`: message from the body
`message` field with an "Erreur OVH HTTP {status}" fallback, remote code
from `errorCode || class`, MCP code and retryability from
`mapHttpStatusToMcp`. -/
def parseOvhErrorData (httpStatus : Nat) (errorData : OvhErrorResponse) :
    OvhApiError :=
  let message := jsStrOr errorData.message ("Erreur OVH HTTP " ++ toString httpStatus)
  let ovhErrorCode := jsOrStr errorData.errorCode errorData.errClass
  let mr := mapHttpStatusToMcp httpStatus ovhErrorCode
  ⟨message, httpStatus, ovhErrorCode, mr.1, mr.2⟩

/-- `parseOvhError` of errors.ts.  The platform primitive `JSON.parse` is
passed in as `jsonParse`: it returns `none` exactly when `JSON.parse`
throws or yields a value without the `OvhErrorResponse` shape. -/
def parseOvhError (jsonParse : String → Option OvhErrorResponse)
    (httpStatus : Nat) (responseBody : ResponseBody) : OvhApiError :=
  match responseBody with
  | .str raw =>
    match jsonParse raw with
    | none => createHttpError httpStatus raw
    | some errorData => parseOvhErrorData httpStatus errorData
  | .structured errorData => parseOvhErrorData httpStatus errorData

/-- The `TimeoutError` subtype: httpStatus 0, code TIMEOUT, retryable. -/
def TimeoutError (timeoutMs : Nat) : OvhApiError :=
  ⟨"Timeout après " ++ toString timeoutMs ++ "ms", 0, some "TIMEOUT",
   .SERVICE_UNAVAILABLE, true⟩

/-- The `RateLimitError` subtype: httpStatus 0, code RATE_LIMIT, retryable. -/
def RateLimitError (message : String) : OvhApiError :=
  ⟨message, 0, some "RATE_LIMIT", .RATE_LIMITED, true⟩

/-! Basic lemmas about the status mapping. -/

/-- `parseOvhError` always draws its MCP code and retryable flag from
`mapHttpStatusToMcp`, on every body path. -/
theorem parseOvhError_code_retryable (jsonParse : String → Option OvhErrorResponse)
    (httpStatus : Nat) (body : ResponseBody) :
    (parseOvhError jsonParse httpStatus body).mcpErrorCode =
      (mapHttpStatusToMcp httpStatus none).1 ∧
    (parseOvhError jsonParse httpStatus body).retryable =
      (mapHttpStatusToMcp httpStatus none).2 := by
  cases body with
  | str raw =>
    cases h : jsonParse raw with
    | none => simp [parseOvhError, h, createHttpError]
    | some e => simp [parseOvhError, h, parseOvhErrorData, mapHttpStatusToMcp]
  | structured e => simp [parseOvhError, parseOvhErrorData, mapHttpStatusToMcp]

theorem mapHttpStatusToMcp_of_5xx (s : Nat) (h5 : 500 ≤ s) (hne : s ≠ 503) :
    mapHttpStatusToMcp s none = (.INTERNAL_ERROR, true) := by
  unfold mapHttpStatusToMcp
  rw [if_neg (by omega), if_pos (by omega), if_neg hne]

theorem mapHttpStatusToMcp_of_other4xx (s : Nat) (h1 : 400 ≤ s) (h2 : s < 500)
    (n400 : s ≠ 400) (n401 : s ≠ 401) (n403 : s ≠ 403) (n404 : s ≠ 404)
    (n429 : s ≠ 429) :
    mapHttpStatusToMcp s none = (.INVALID_PARAMS, false) := by
  unfold mapHttpStatusToMcp
  rw [if_pos ⟨h1, h2⟩, if_neg n400, if_neg (by omega), if_neg n404, if_neg n429]

theorem mapHttpStatusToMcp_of_lt400 (s : Nat) (h : s < 400) :
    mapHttpStatusToMcp s none = (.INTERNAL_ERROR, false) := by
  unfold mapHttpStatusToMcp
  rw [if_neg (by omega), if_neg (by omega)]

/-- C2: for every listed row of the status table, `parseOvhError` yields
exactly the listed normalized MCP code and retryable flag: 400 →
INVALID_PARAMS not retryable; 401 and 403 → PERMISSION_DENIED not
retryable; 404 → RESOURCE_NOT_FOUND not retryable; 429 → RATE_LIMITED
retryable; 503 → SERVICE_UNAVAILABLE retryable; every other status in
500–599 → INTERNAL_ERROR retryable. -/
theorem claim_C2_status_table (jsonParse : String → Option OvhErrorResponse)
    (body : ResponseBody) (s : Nat) :
    (s = 400 → (parseOvhError jsonParse s body).mcpErrorCode = .INVALID_PARAMS ∧
      (parseOvhError jsonParse s body).retryable = false) ∧
    (s = 401 ∨ s = 403 → (parseOvhError jsonParse s body).mcpErrorCode = .PERMISSION_DENIED ∧
      (parseOvhError jsonParse s body).retryable = false) ∧
    (s = 404 → (parseOvhError jsonParse s body).mcpErrorCode = .RESOURCE_NOT_FOUND ∧
      (parseOvhError jsonParse s body).retryable = false) ∧
    (s = 429 → (parseOvhError jsonParse s body).mcpErrorCode = .RATE_LIMITED ∧
      (parseOvhError jsonParse s body).retryable = true) ∧
    (s = 503 → (parseOvhError jsonParse s body).mcpErrorCode = .SERVICE_UNAVAILABLE ∧
      (parseOvhError jsonParse s body).retryable = true) ∧
    (500 ≤ s → s ≤ 599 → s ≠ 503 →
      (parseOvhError jsonParse s body).mcpErrorCode = .INTERNAL_ERROR ∧
      (parseOvhError jsonParse s body).retryable = true) := by
  obtain ⟨hc, hr⟩ := parseOvhError_code_retryable jsonParse s body
  refine ⟨?_, ?_, ?_, ?_, ?_, ?_⟩
  · rintro rfl
    rw [hc, hr]; constructor <;> rfl
  · rintro (rfl | rfl) <;> (rw [hc, hr]; constructor <;> rfl)
  · rintro rfl
    rw [hc, hr]; constructor <;> rfl
  · rintro rfl
    rw [hc, hr]; constructor <;> rfl
  · rintro rfl
    rw [hc, hr]; constructor <;> rfl
  · intro h5 _ hne
    rw [hc, hr, mapHttpStatusToMcp_of_5xx s h5 hne]
    exact ⟨rfl, rfl⟩

/-- Witness for C2: the table rows evaluated at concrete statuses
400, 401, 403, 404, 429, 503 and 500. -/
theorem claim_C2_witness :
    ((parseOvhError (fun _ => none) 400 (.str "")).mcpErrorCode = .INVALID_PARAMS ∧
      (parseOvhError (fun _ => none) 400 (.str "")).retryable = false) ∧
    ((parseOvhError (fun _ => none) 401 (.str "")).mcpErrorCode = .PERMISSION_DENIED ∧
      (parseOvhError (fun _ => none) 401 (.str "")).retryable = false) ∧
    ((parseOvhError (fun _ => none) 403 (.str "")).mcpErrorCode = .PERMISSION_DENIED ∧
      (parseOvhError (fun _ => none) 403 (.str "")).retryable = false) ∧
    ((parseOvhError (fun _ => none) 404 (.str "")).mcpErrorCode = .RESOURCE_NOT_FOUND ∧
      (parseOvhError (fun _ => none) 404 (.str "")).retryable = false) ∧
    ((parseOvhError (fun _ => none) 429 (.str "")).mcpErrorCode = .RATE_LIMITED ∧
      (parseOvhError (fun _ => none) 429 (.str "")).retryable = true) ∧
    ((parseOvhError (fun _ => none) 503 (.str "")).mcpErrorCode = .SERVICE_UNAVAILABLE ∧
      (parseOvhError (fun _ => none) 503 (.str "")).retryable = true) ∧
    ((parseOvhError (fun _ => none) 500 (.str "")).mcpErrorCode = .INTERNAL_ERROR ∧
      (parseOvhError (fun _ => none) 500 (.str "")).retryable = true) :=
  ⟨(claim_C2_status_table (fun _ => none) (.str "") 400).1 rfl,
   (claim_C2_status_table (fun _ => none) (.str "") 401).2.1 (Or.inl rfl),
   (claim_C2_status_table (fun _ => none) (.str "") 403).2.1 (Or.inr rfl),
   (claim_C2_status_table (fun _ => none) (.str "") 404).2.2.1 rfl,
   (claim_C2_status_table (fun _ => none) (.str "") 429).2.2.2.1 rfl,
   (claim_C2_status_table (fun _ => none) (.str "") 503).2.2.2.2.1 rfl,
   (claim_C2_status_table (fun _ => none) (.str "") 500).2.2.2.2.2
     (by decide) (by decide) (by decide)⟩

/-- C3 counterexample: status 402 (unlisted 4xx) yields INVALID_PARAMS, not
INTERNAL_ERROR as claimed; status 600 falls into the `>= 500` branch of
`mapHttpStatusToMcp` and is retryable, contradicting retryable=false. -/
theorem claim_C3_counterexample :
    (parseOvhError (fun _ => none) 402 (.str "")).mcpErrorCode = .INVALID_PARAMS ∧
    (parseOvhError (fun _ => none) 402 (.str "")).mcpErrorCode ≠ .INTERNAL_ERROR ∧
    (parseOvhError (fun _ => none) 600 (.str "")).retryable = true := by
  refine ⟨by decide, by decide, by decide⟩

/-- C3 (amended): an HTTP status in 400–499 not equal to 400, 401, 403,
404 or 429 yields INVALID_PARAMS, not retryable; a status ≥ 600 falls into
the 5xx branch and yields INTERNAL_ERROR (SERVICE_UNAVAILABLE at 603 is
impossible since only exactly 503 is special), retryable; a status < 400
not covered by any row yields INTERNAL_ERROR, not retryable. -/
theorem claim_C3_amended (jsonParse : String → Option OvhErrorResponse)
    (body : ResponseBody) (s : Nat) :
    (400 ≤ s → s < 500 → s ≠ 400 → s ≠ 401 → s ≠ 403 → s ≠ 404 → s ≠ 429 →
      (parseOvhError jsonParse s body).mcpErrorCode = .INVALID_PARAMS ∧
      (parseOvhError jsonParse s body).retryable = false) ∧
    (600 ≤ s →
      (parseOvhError jsonParse s body).mcpErrorCode = .INTERNAL_ERROR ∧
      (parseOvhError jsonParse s body).retryable = true) ∧
    (s < 400 →
      (parseOvhError jsonParse s body).mcpErrorCode = .INTERNAL_ERROR ∧
      (parseOvhError jsonParse s body).retryable = false) := by
  obtain ⟨hc, hr⟩ := parseOvhError_code_retryable jsonParse s body
  refine ⟨?_, ?_, ?_⟩
  · intro h1 h2 n400 n401 n403 n404 n429
    rw [hc, hr, mapHttpStatusToMcp_of_other4xx s h1 h2 n400 n401 n403 n404 n429]
    exact ⟨rfl, rfl⟩
  · intro h6
    rw [hc, hr, mapHttpStatusToMcp_of_5xx s (by omega) (by omega)]
    exact ⟨rfl, rfl⟩
  · intro h4
    rw [hc, hr, mapHttpStatusToMcp_of_lt400 s h4]
    exact ⟨rfl, rfl⟩

/-- Witness for the amended C3, at statuses 402, 600 and 300. -/
theorem claim_C3_amended_witness :
    ((parseOvhError (fun _ => none) 402 (.str "")).mcpErrorCode = .INVALID_PARAMS ∧
      (parseOvhError (fun _ => none) 402 (.str "")).retryable = false) ∧
    ((parseOvhError (fun _ => none) 600 (.str "")).mcpErrorCode = .INTERNAL_ERROR ∧
      (parseOvhError (fun _ => none) 600 (.str "")).retryable = true) ∧
    ((parseOvhError (fun _ => none) 300 (.str "")).mcpErrorCode = .INTERNAL_ERROR ∧
      (parseOvhError (fun _ => none) 300 (.str "")).retryable = false) :=
  ⟨(claim_C3_amended (fun _ => none) (.str "") 402).1 (by decide) (by decide)
      (by decide) (by decide) (by decide) (by decide) (by decide),
   (claim_C3_amended (fun _ => none) (.str "") 600).2.1 (by decide),
   (claim_C3_amended (fun _ => none) (.str "") 300).2.2 (by decide)⟩

/-- C8 counterexample: for status 500 with the non-JSON body "oops"
(`JSON.parse` throws on it, modelled by `jsonParse` returning `none`),
`parseOvhError` uses the raw body text "oops" as the message — not a
synthesized "HTTP 500" message as the claim states for every body without
a JSON message field. -/
theorem claim_C8_counterexample :
    (parseOvhError (fun _ => none) 500 (.str "oops")).message = "oops" ∧
    (parseOvhError (fun _ => none) 500 (.str "oops")).message ≠ "Erreur HTTP 500" ∧
    (parseOvhError (fun _ => none) 500 (.str "oops")).message ≠ "Erreur OVH HTTP 500" := by
  refine ⟨by decide, by decide, by decide⟩

/-- C8 (amended): when the body parses as structured JSON whose `message`
field is present and non-empty, that field is the error message; when the
body does not parse as JSON, the raw body text is used if non-empty and
"Erreur HTTP {status}" is synthesized only for an empty body; when the
body parses as JSON without a non-empty `message` field,
"Erreur OVH HTTP {status}" is synthesized. -/
theorem claim_C8_amended (jsonParse : String → Option OvhErrorResponse)
    (s : Nat) (raw : String) (e : OvhErrorResponse) :
    (∀ m, jsonParse raw = some e → e.message = some m → m ≠ "" →
      (parseOvhError jsonParse s (.str raw)).message = m) ∧
    (jsonParse raw = none → raw ≠ "" →
      (parseOvhError jsonParse s (.str raw)).message = raw) ∧
    (jsonParse raw = none → raw = "" →
      (parseOvhError jsonParse s (.str raw)).message = "Erreur HTTP " ++ toString s) ∧
    (jsonParse raw = some e → jsTruthyStr e.message = false →
      (parseOvhError jsonParse s (.str raw)).message = "Erreur OVH HTTP " ++ toString s) ∧
    (∀ m, e.message = some m → m ≠ "" →
      (parseOvhError jsonParse s (.structured e)).message = m) := by
  refine ⟨?_, ?_, ?_, ?_, ?_⟩
  · intro m hp hm hne
    simp [parseOvhError, hp, parseOvhErrorData, jsStrOr, jsOrStr, jsTruthyStr, hm, hne]
  · intro hp hne
    simp [parseOvhError, hp, createHttpError, hne]
  · intro hp hraw
    subst hraw
    simp [parseOvhError, hp, createHttpError]
  · intro hp hfal
    simp [parseOvhError, hp, parseOvhErrorData, jsStrOr, jsOrStr, hfal]
  · intro m hm hne
    simp [parseOvhError, parseOvhErrorData, jsStrOr, jsOrStr, jsTruthyStr, hm, hne]

/-- Witness for the amended C8: a JSON body with message "boom", the
non-JSON body "oops", an empty non-JSON body, and a JSON body without a
message field, all at status 500. -/
theorem claim_C8_amended_witness :
    (parseOvhError (fun _ => some ⟨none, some "boom", none, none, none⟩) 500
      (.str "x")).message = "boom" ∧
    (parseOvhError (fun _ => none) 500 (.str "oops")).message = "oops" ∧
    (parseOvhError (fun _ => none) 500 (.str "")).message = "Erreur HTTP 500" ∧
    (parseOvhError (fun _ => some ⟨none, none, none, none, none⟩) 500
      (.str "x")).message = "Erreur OVH HTTP 500" :=
  ⟨(claim_C8_amended (fun _ => some ⟨none, some "boom", none, none, none⟩) 500 "x"
      ⟨none, some "boom", none, none, none⟩).1 "boom" rfl rfl (by decide),
   (claim_C8_amended (fun _ => none) 500 "oops"
      ⟨none, none, none, none, none⟩).2.1 rfl (by decide),
   (claim_C8_amended (fun _ => none) 500 ""
      ⟨none, none, none, none, none⟩).2.2.1 rfl rfl,
   (claim_C8_amended (fun _ => some ⟨none, none, none, none, none⟩) 500 "x"
      ⟨none, none, none, none, none⟩).2.2.2.1 rfl (by decide)⟩

/-! ## SHA-1 — model of node:crypto `createHash('sha1')`

A byte-level SHA-1 (FIPS 180-4) over `Nat` with explicit reduction
modulo 2^32, used by the AK/AS/CK signature provider. -/

/-- Truncation to 32 bits. -/
def w32 (n : Nat) : Nat := n % 4294967296

/-- 32-bit left rotation (for 0 < k < 32). -/
def rotl32 (x k : Nat) : Nat := w32 ((x <<< k) ||| (x >>> (32 - k)))

/-- SHA-1 round function, by round index. -/
def sha1F (i b c d : Nat) : Nat :=
  if i < 20 then (b &&& c) ||| ((b ^^^ 4294967295) &&& d)
  else if i < 40 then b ^^^ c ^^^ d
  else if i < 60 then (b &&& c) ||| (b &&& d) ||| (c &&& d)
  else b ^^^ c ^^^ d

/-- SHA-1 round constants, by round index. -/
def sha1K (i : Nat) : Nat :=
  if i < 20 then 1518500249
  else if i < 40 then 1859775393
  else if i < 60 then 2400959708
  else 3395469782

/-- SHA-1 padding: append 0x80, zeros to 56 mod 64, then the bit length as
8 big-endian bytes. -/
def sha1Pad (msg : List Nat) : List Nat :=
  let bitLen := msg.length * 8
  let z := (119 - msg.length % 64) % 64
  msg ++ [128] ++ List.replicate z 0 ++
    [(bitLen >>> 56) % 256, (bitLen >>> 48) % 256, (bitLen >>> 40) % 256,
     (bitLen >>> 32) % 256, (bitLen >>> 24) % 256, (bitLen >>> 16) % 256,
     (bitLen >>> 8) % 256, bitLen % 256]

/-- Big-endian packing of bytes into 32-bit words. -/
def bytesToWords : List Nat → List Nat
  | b0 :: b1 :: b2 :: b3 :: rest =>
    (((b0 * 256 + b1) * 256 + b2) * 256 + b3) :: bytesToWords rest
  | _ => []

/-- Message-schedule extension: push `k` more words, each the 1-rotation of
the xor of the words 3, 8, 14 and 16 positions back. -/
def sha1ExtendFrom (w : Array Nat) : Nat → Array Nat
  | 0 => w
  | k + 1 =>
    let i := w.size
    let nw := rotl32 ((w.getD (i-3) 0) ^^^ (w.getD (i-8) 0) ^^^
                      (w.getD (i-14) 0) ^^^ (w.getD (i-16) 0)) 1
    sha1ExtendFrom (w.push nw) k

/-- The 80 compression rounds, from round `i` with `fuel` rounds left. -/
def sha1RoundsGo (w : Array Nat) : Nat → Nat →
    Nat × Nat × Nat × Nat × Nat → Nat × Nat × Nat × Nat × Nat
  | _, 0, st => st
  | i, k + 1, (a, b, c, d, e) =>
    let temp := w32 (rotl32 a 5 + sha1F i b c d + e + sha1K i + w.getD i 0)
    sha1RoundsGo w (i + 1) k (temp, a, rotl32 b 30, c, d)

/-- Process one 64-byte chunk. -/
def sha1Chunk (h : Nat × Nat × Nat × Nat × Nat) (chunk : List Nat) :
    Nat × Nat × Nat × Nat × Nat :=
  let w := sha1ExtendFrom (Array.mk (bytesToWords chunk)) 64
  let (h0, h1, h2, h3, h4) := h
  let (a, b, c, d, e) := sha1RoundsGo w 0 80 (h0, h1, h2, h3, h4)
  (w32 (h0 + a), w32 (h1 + b), w32 (h2 + c), w32 (h3 + d), w32 (h4 + e))

/-- Split a byte list into 64-byte chunks. -/
def chunks64 : List Nat → List (List Nat)
  | [] => []
  | x :: rest => ((x :: rest).take 64) :: chunks64 ((x :: rest).drop 64)
termination_by l => l.length
decreasing_by simp [List.length_drop]; omega

/-- SHA-1 of a byte list: the five 32-bit state words. -/
def sha1Bytes (msg : List Nat) : Nat × Nat × Nat × Nat × Nat :=
  (chunks64 (sha1Pad msg)).foldl sha1Chunk
    (1732584193, 4023233417, 2562383102, 271733878, 3285377520)

/-- Lowercase hex digit. -/
def hexChar (n : Nat) : Char :=
  if n < 10 then Char.ofNat (48 + n) else Char.ofNat (87 + n)

/-- 8-digit lowercase hex rendering of a 32-bit word. -/
def toHex8 (n : Nat) : String :=
  String.mk ((List.range 8).map (fun i => hexChar ((n >>> ((7 - i) * 4)) % 16)))

/-- `createHash('sha1').update(s).digest('hex')`: lowercase hex SHA-1 of
the UTF-8 bytes of `s`. -/
def sha1Hex (s : String) : String :=
  let msg := s.toUTF8.toList.map (fun b => b.toNat)
  let (h0, h1, h2, h3, h4) := sha1Bytes msg
  toHex8 h0 ++ toHex8 h1 ++ toHex8 h2 ++ toHex8 h3 ++ toHex8 h4

/-! ## AK/AS/CK signature provider — src/ovh/auth/akAsCkSignature.ts (part_006)

The file appears in two versions in the repository sources; their
`computeSignature` bodies are identical, while `syncTime` differs in its
handling of a non-2xx response (modelled below as `syncTimeV1` for the
version at lines 88–134 and `syncTimeV2` for the one at lines 265–279).
Platform time and network are explicit parameters: `Math.floor(Date.now()/1000)`
readings are passed in, and the outcome of the `/auth/time` fetch is a
`SyncOutcome`. -/

/-- The `AkAsCkConfig` interface. -/
structure AkAsCkConfig where
  appKey : String
  appSecret : String
  consumerKey : String
  apiBaseUrl : String
deriving DecidableEq, Repr

/-- JavaScript `String.prototype.toUpperCase` (ASCII range, which covers
every HTTP method). -/
def jsToUpperCase (s : String) : String := String.mk (s.data.map Char.toUpper)

/-- `computeSignature`: join secret, consumer key, uppercased method, url,
body and timestamp with "+", then prefix the lowercase hex SHA-1 with
"$1$". -/
def computeSignature (config : AkAsCkConfig) (method url body : String)
    (timestamp : Int) : String :=
  let toSign := String.intercalate "+"
    [config.appSecret, config.consumerKey, jsToUpperCase method, url, body,
     toString timestamp]
  "$1$" ++ sha1Hex toSign

/-- Outcome of the `/auth/time` fetch: a 2xx JSON integer, a non-2xx
response, or a thrown network error. -/
inductive SyncOutcome where
  | ok (serverTime : Int)
  | httpError (status : Nat)
  | threw
deriving DecidableEq, Repr

/-- `syncTime` of the version at part_006 lines 88–134: a non-2xx response
throws inside the `try`, so the `catch` sets the delta to 0; a thrown
network error likewise sets 0. -/
def syncTimeV1 (localTime : Int) (out : SyncOutcome) (timeDelta : Option Int) :
    Option Int :=
  match out with
  | .ok serverTime => some (serverTime - localTime)
  | .httpError _ => some 0
  | .threw => some 0

/-- `syncTime` of the version at part_006 lines 265–279: only the `catch`
(a thrown error) sets the delta to 0; on a non-2xx response the
`if (response.ok)` guard simply skips the assignment and the delta keeps
its previous value. -/
def syncTimeV2 (localTime : Int) (out : SyncOutcome) (timeDelta : Option Int) :
    Option Int :=
  match out with
  | .ok serverTime => some (serverTime - localTime)
  | .httpError _ => timeDelta
  | .threw => some 0

/-- JavaScript `x || 0` on a `number | null` value: null and 0 give 0. -/
def jsIntOr (o : Option Int) (d : Int) : Int :=
  match o with
  | none => d
  | some n => if n = 0 then d else n

/-- `getHeaders` of the AK/AS/CK provider, over either `syncTime` variant:
sync if the delta is unset, then sign with timestamp
`now + (timeDelta || 0)` and return the five headers together with the
updated delta.  The embedding is total because the source `getHeaders` has
no throw path: both `syncTime` variants swallow every failure. -/
def akGetHeaders (sync : Int → SyncOutcome → Option Int → Option Int)
    (config : AkAsCkConfig) (syncLocalSec nowSec : Int) (out : SyncOutcome)
    (method url : String) (body : Option String) (timeDelta : Option Int) :
    List (String × String) × Option Int :=
  let timeDelta' := if timeDelta = none then sync syncLocalSec out timeDelta
                    else timeDelta
  let timestamp := nowSec + jsIntOr timeDelta' 0
  let signature := computeSignature config method url (body.getD "") timestamp
  ([("X-Ovh-Application", config.appKey),
    ("X-Ovh-Consumer", config.consumerKey),
    ("X-Ovh-Timestamp", toString timestamp),
    ("X-Ovh-Signature", signature),
    ("Content-Type", "application/json")], timeDelta')

/-- The header set `getHeaders` produces for a given timestamp. -/
def akExpectedHeaders (config : AkAsCkConfig) (method url : String)
    (body : Option String) (timestamp : Int) : List (String × String) :=
  [("X-Ovh-Application", config.appKey),
   ("X-Ovh-Consumer", config.consumerKey),
   ("X-Ovh-Timestamp", toString timestamp),
   ("X-Ovh-Signature", computeSignature config method url (body.getD "") timestamp),
   ("Content-Type", "application/json")]

/-- C6: the signature is "$1$" followed by the lowercase hex SHA-1 of
secret + "+" + consumerKey + "+" + uppercased method + "+" + url + "+" +
body + "+" + decimal timestamp; in particular, for method GET, url
https://x/y, empty body, secret S, consumer key CK and timestamp T it is
"$1$" + sha1hex("S+CK+GET+https://x/y++T"). -/
theorem claim_C6_signature_format (config : AkAsCkConfig)
    (method url body : String) (timestamp : Int) :
    computeSignature config method url body timestamp =
      "$1$" ++ sha1Hex (config.appSecret ++ "+" ++ config.consumerKey ++ "+" ++
        jsToUpperCase method ++ "+" ++ url ++ "+" ++ body ++ "+" ++
        toString timestamp) ∧
    computeSignature ⟨"AK", "S", "CK", "base"⟩ "GET" "https://x/y" "" timestamp =
      "$1$" ++ sha1Hex ("S+CK+GET+https://x/y++" ++ toString timestamp) := by
  constructor
  · rfl
  · rfl

/-- C7 counterexample: in the `syncTime` variant at part_006 lines 265–279,
a non-2xx response from the time endpoint does not set TimeDelta to 0 —
the delta stays unset after `getHeaders` (while the claim says every sync
failure sets it to 0). -/
theorem claim_C7_counterexample :
    (akGetHeaders syncTimeV2 ⟨"AK", "AS", "CK", "base"⟩ 1000 1000
      (.httpError 500) "GET" "https://x/y" none none).2 = none ∧
    (akGetHeaders syncTimeV2 ⟨"AK", "AS", "CK", "base"⟩ 1000 1000
      (.httpError 500) "GET" "https://x/y" none none).2 ≠ some 0 := by
  exact ⟨rfl, by decide⟩

/-- C7 (amended): if the time-sync call fails (non-2xx response or thrown
network error), `getHeaders` still returns the complete five-header set
with a signature computed with delta 0 (timestamp = local now), and never
throws (the embedding is total); the variant at lines 88–134 sets
TimeDelta to 0 on every failure, whereas the variant at lines 265–279 sets
it to 0 only on a thrown error and leaves it unset on a non-2xx response,
forcing a resynchronization on the next call. -/
theorem claim_C7_amended (config : AkAsCkConfig) (syncSec nowSec : Int)
    (method url : String) (body : Option String) (st : Nat) (out : SyncOutcome)
    (hfail : out = .httpError st ∨ out = .threw) :
    ((akGetHeaders syncTimeV1 config syncSec nowSec out method url body none).1 =
        akExpectedHeaders config method url body nowSec ∧
     (akGetHeaders syncTimeV1 config syncSec nowSec out method url body none).2 =
        some 0) ∧
    ((akGetHeaders syncTimeV2 config syncSec nowSec out method url body none).1 =
        akExpectedHeaders config method url body nowSec ∧
     (out = .threw →
       (akGetHeaders syncTimeV2 config syncSec nowSec out method url body none).2 =
         some 0) ∧
     (out = .httpError st →
       (akGetHeaders syncTimeV2 config syncSec nowSec out method url body none).2 =
         none)) := by
  rcases hfail with rfl | rfl
  · exact ⟨⟨by simp [akGetHeaders, syncTimeV1, jsIntOr, akExpectedHeaders], rfl⟩,
      by simp [akGetHeaders, syncTimeV2, jsIntOr, akExpectedHeaders],
      fun h => SyncOutcome.noConfusion h,
      fun _ => rfl⟩
  · exact ⟨⟨by simp [akGetHeaders, syncTimeV1, jsIntOr, akExpectedHeaders], rfl⟩,
      by simp [akGetHeaders, syncTimeV2, jsIntOr, akExpectedHeaders],
      fun _ => rfl,
      fun h => SyncOutcome.noConfusion h⟩

/-- Witness for the amended C7: both failure outcomes at concrete inputs. -/
theorem claim_C7_amended_witness :
    ((akGetHeaders syncTimeV1 ⟨"AK", "AS", "CK", "base"⟩ 1000 1000
        (.httpError 500) "GET" "https://x/y" none none).1 =
      akExpectedHeaders ⟨"AK", "AS", "CK", "base"⟩ "GET" "https://x/y" none 1000 ∧
     (akGetHeaders syncTimeV1 ⟨"AK", "AS", "CK", "base"⟩ 1000 1000
        (.httpError 500) "GET" "https://x/y" none none).2 = some 0) ∧
    ((akGetHeaders syncTimeV2 ⟨"AK", "AS", "CK", "base"⟩ 1000 1000
        .threw "GET" "https://x/y" none none).2 = some 0) ∧
    ((akGetHeaders syncTimeV2 ⟨"AK", "AS", "CK", "base"⟩ 1000 1000
        (.httpError 500) "GET" "https://x/y" none none).2 = none) :=
  ⟨⟨((claim_C7_amended ⟨"AK", "AS", "CK", "base"⟩ 1000 1000 "GET" "https://x/y"
        none 500 (.httpError 500) (Or.inl rfl)).1.1),
    ((claim_C7_amended ⟨"AK", "AS", "CK", "base"⟩ 1000 1000 "GET" "https://x/y"
        none 500 (.httpError 500) (Or.inl rfl)).1.2)⟩,
   ((claim_C7_amended ⟨"AK", "AS", "CK", "base"⟩ 1000 1000 "GET" "https://x/y"
        none 500 .threw (Or.inr rfl)).2.2.1 rfl),
   ((claim_C7_amended ⟨"AK", "AS", "CK", "base"⟩ 1000 1000 "GET" "https://x/y"
        none 500 (.httpError 500) (Or.inl rfl)).2.2.2 rfl)⟩

/-! ## OAuth2 service-account provider — src/ovh/auth/oauth2ServiceAccount.ts

Sequential (single-caller) embedding.  `Date.now()` readings and the
token-endpoint fetch outcome are explicit parameters.  Between straight-line
calls the `finally` in `getValidToken` guarantees `tokenRefreshPromise` is
null, so the single-caller embedding takes the refresh path directly; the
in-flight-promise branch is covered by the interleaving model further
below. -/

/-- The `CachedToken` record: access token and absolute expiry (ms). -/
structure CachedToken where
  accessToken : String
  expiresAt : Int
deriving DecidableEq, Repr

/-- Mutable state of one `OAuth2ServiceAccountProvider` instance. -/
structure OAuth2State where
  cachedToken : Option CachedToken
  tokenRefreshPromise : Bool
deriving DecidableEq, Repr

/-- `TOKEN_REFRESH_MARGIN_MS = 60 * 1000`. -/
def TOKEN_REFRESH_MARGIN_MS : Int := 60 * 1000

/-- `isTokenValid`: strictly before expiry minus the safety margin. -/
def isTokenValid (nowMs : Int) (token : CachedToken) : Bool :=
  nowMs < token.expiresAt - TOKEN_REFRESH_MARGIN_MS

/-- The `AuthError` thrown by providers. -/
structure AuthError where
  message : String
  provider : String
deriving DecidableEq, Repr

/-- Outcome of the POST to the token endpoint: a 2xx `TokenResponse`
(access_token, expires_in seconds), or a non-2xx response with its body
text. -/
inductive TokenFetchOutcome where
  | ok (accessToken : String) (expiresIn : Int)
  | httpError (status : Nat) (errorText : String)
deriving DecidableEq, Repr

/-- `refreshToken`: on a non-2xx response throw an `AuthError`; on success
cache `{accessToken, expiresAt = now + expires_in * 1000}` and return the
token. -/
def refreshToken (nowMs : Int) (out : TokenFetchOutcome) (s : OAuth2State) :
    Except AuthError String × OAuth2State :=
  match out with
  | .ok accessToken expiresIn =>
    (Except.ok accessToken,
     { s with cachedToken := some ⟨accessToken, nowMs + expiresIn * 1000⟩ })
  | .httpError status errorText =>
    (Except.error ⟨"Échec récupération token OAuth2: " ++ toString status ++
        " - " ++ errorText, "OAuth2ServiceAccount"⟩, s)

/-- The refresh path of `getValidToken`: store the promise, await the
refresh, and clear the promise in the `finally`.  The third component
records that a token-fetch network call was performed. -/
def getValidTokenRefresh (nowMs : Int) (out : TokenFetchOutcome)
    (s : OAuth2State) : Except AuthError String × OAuth2State × Bool :=
  let r := refreshToken nowMs out { s with tokenRefreshPromise := true }
  (r.1, { r.2 with tokenRefreshPromise := false }, true)

/-- `getValidToken`, sequential embedding: return the cached token with no
network call while it is valid, otherwise refresh. -/
def getValidToken (nowMs : Int) (out : TokenFetchOutcome) (s : OAuth2State) :
    Except AuthError String × OAuth2State × Bool :=
  match s.cachedToken with
  | some t =>
    if isTokenValid nowMs t then (Except.ok t.accessToken, s, false)
    else getValidTokenRefresh nowMs out s
  | none => getValidTokenRefresh nowMs out s

/-- `getHeaders` of the OAuth2 provider: bearer authorization plus
content type. -/
def oauthGetHeaders (nowMs : Int) (out : TokenFetchOutcome) (s : OAuth2State) :
    Except AuthError (List (String × String)) × OAuth2State × Bool :=
  match getValidToken nowMs out s with
  | (Except.ok token, s2, fetched) =>
    (Except.ok [("Authorization", "Bearer " ++ token),
                ("Content-Type", "application/json")], s2, fetched)
  | (Except.error e, s2, fetched) => (Except.error e, s2, fetched)

/-- `invalidateCache`: clear both the cached token and the in-flight
marker. -/
def invalidateCache (s : OAuth2State) : OAuth2State := ⟨none, false⟩

/-- C5: with no refresh in flight, `getValidToken` returns without a
network call exactly when a cached token exists and the current time is
strictly before its expiry minus the 60-second margin (in which case the
result is that cached token); once expired or within the margin a fetch
always happens; and after `invalidateCache()` the next `getHeaders`
performs a fresh token fetch even if the previously cached token had not
expired. -/
theorem claim_C5_token_cache (nowMs : Int) (out : TokenFetchOutcome)
    (s : OAuth2State) :
    TOKEN_REFRESH_MARGIN_MS = 60000 ∧
    ((getValidToken nowMs out s).2.2 = false ↔
      ∃ t, s.cachedToken = some t ∧ nowMs < t.expiresAt - TOKEN_REFRESH_MARGIN_MS) ∧
    (∀ t, s.cachedToken = some t → nowMs < t.expiresAt - TOKEN_REFRESH_MARGIN_MS →
      getValidToken nowMs out s = (Except.ok t.accessToken, s, false)) ∧
    (∀ t, s.cachedToken = some t → ¬(nowMs < t.expiresAt - TOKEN_REFRESH_MARGIN_MS) →
      (getValidToken nowMs out s).2.2 = true) ∧
    (oauthGetHeaders nowMs out (invalidateCache s)).2.2 = true := by
  refine ⟨rfl, ?_, ?_, ?_, ?_⟩
  · constructor
    · intro h
      match hc : s.cachedToken with
      | none => simp [getValidToken, hc, getValidTokenRefresh] at h
      | some t =>
        refine ⟨t, rfl, ?_⟩
        by_contra hlt
        have hval : isTokenValid nowMs t = false := by
          simpa [isTokenValid] using hlt
        simp [getValidToken, hc, hval, getValidTokenRefresh] at h
    · rintro ⟨t, hc, hlt⟩
      have hval : isTokenValid nowMs t = true := by
        simpa [isTokenValid] using hlt
      simp [getValidToken, hc, hval]
  · intro t hc hlt
    have hval : isTokenValid nowMs t = true := by
      simpa [isTokenValid] using hlt
    simp [getValidToken, hc, hval]
  · intro t hc hlt
    have hval : isTokenValid nowMs t = false := by
      simpa [isTokenValid] using hlt
    simp [getValidToken, hc, hval, getValidTokenRefresh]
  · rcases out with _ | _ <;>
      simp [oauthGetHeaders, invalidateCache, getValidToken,
            getValidTokenRefresh, refreshToken]

/-- Witness for C5: a token valid for another hour is served from cache;
the same token within the 60-second margin triggers a fetch; after
invalidation a fetch happens though the token was still valid. -/
theorem claim_C5_token_cache_witness :
    (getValidToken 1000 (.ok "t2" 3600) ⟨some ⟨"t1", 3601000⟩, false⟩ =
      (Except.ok "t1", ⟨some ⟨"t1", 3601000⟩, false⟩, false)) ∧
    ((getValidToken 3600000 (.ok "t2" 3600) ⟨some ⟨"t1", 3601000⟩, false⟩).2.2 = true) ∧
    ((oauthGetHeaders 1000 (.ok "t2" 3600)
        (invalidateCache ⟨some ⟨"t1", 3601000⟩, false⟩)).2.2 = true) :=
  ⟨(claim_C5_token_cache 1000 (.ok "t2" 3600) ⟨some ⟨"t1", 3601000⟩, false⟩).2.2.1
      ⟨"t1", 3601000⟩ rfl (by decide),
   (claim_C5_token_cache 3600000 (.ok "t2" 3600) ⟨some ⟨"t1", 3601000⟩, false⟩).2.2.2.1
      ⟨"t1", 3601000⟩ rfl (by decide),
   (claim_C5_token_cache 1000 (.ok "t2" 3600) ⟨some ⟨"t1", 3601000⟩, false⟩).2.2.2.2⟩

/-! ## Token-bucket rate limiter — src/utils/rateLimiter.ts

JavaScript numbers are modelled as rationals; the `Date.now()` readings
before and after the optional wait are explicit parameters. -/

/-- The `RateLimiterConfig` interface; `maxWaitMs` is optional. -/
structure RateLimiterConfig where
  maxTokens : ℚ
  refillRate : ℚ
  maxWaitMs : Option ℚ
deriving DecidableEq, Repr

/-- Mutable state of one `TokenBucketRateLimiter`. -/
structure BucketState where
  tokens : ℚ
  lastRefillTime : ℚ
deriving DecidableEq, Repr

/-- `refill`: add elapsed-time tokens, capped at `maxTokens`. -/
def refill (config : RateLimiterConfig) (now : ℚ) (s : BucketState) :
    BucketState :=
  let elapsedMs := now - s.lastRefillTime
  let tokensToAdd := elapsedMs / 1000 * config.refillRate
  ⟨min config.maxTokens (s.tokens + tokensToAdd), now⟩

/-- JavaScript truthiness of a `number | undefined`: undefined and 0 are
falsy. -/
def jsTruthyNum (o : Option ℚ) : Bool :=
  match o with
  | none => false
  | some q => q ≠ 0

/-- `acquire`: refill, consume a token if available; otherwise throw
`RateLimitError` immediately when waiting is disabled or `maxWaitMs` is
falsy; otherwise wait (the post-sleep `Date.now()` is `now2`), refill
again and either consume or throw.  The bucket state is returned on every
path, since `refill` mutates the instance even when `acquire` throws. -/
def acquire (config : RateLimiterConfig) (now1 now2 : ℚ) (waitIfNeeded : Bool)
    (s : BucketState) : Except OvhApiError Bool × BucketState :=
  let s1 := refill config now1 s
  if 1 ≤ s1.tokens then (Except.ok true, ⟨s1.tokens - 1, s1.lastRefillTime⟩)
  else if !waitIfNeeded || !jsTruthyNum config.maxWaitMs then
    (Except.error (RateLimitError "Rate limit atteint, réessayez plus tard"), s1)
  else
    let tokensNeeded := 1 - s1.tokens
    let waitTimeMs : Int := ⌈tokensNeeded / config.refillRate * 1000⌉
    if config.maxWaitMs.getD 0 < (waitTimeMs : ℚ) then
      (Except.error (RateLimitError ("Rate limit atteint, temps d\x27attente " ++
        toString waitTimeMs ++ "ms > max " ++ toString (config.maxWaitMs.getD 0) ++
        "ms")), s1)
    else
      let s2 := refill config now2 s1
      if 1 ≤ s2.tokens then (Except.ok true, ⟨s2.tokens - 1, s2.lastRefillTime⟩)
      else (Except.error (RateLimitError
        "Rate limit: impossible d\x27acquérir un token après attente"), s2)

/-! ## Request executor and retry controller — src/ovh/client.ts

The executor's collaborators are explicit: the auth provider's outcome,
the `fetch` outcome, and `JSON.parse` for error bodies.  An exception
propagating out of `executeRequest` is either an `OvhApiError` value or a
raw JavaScript error (name and message), as in the source where a
non-`AuthError` failure of `getHeaders` is rethrown unwrapped. -/

/-- A thrown exception: a (subtype of) `OvhApiError`, or a raw JavaScript
error with its name and message. -/
inductive ThrownError where
  | api (e : OvhApiError)
  | js (name : String) (msg : String)
deriving DecidableEq, Repr

/-- Contiguous-sublist test on character lists. -/
def listInfixOf (p : List Char) : List Char → Bool
  | [] => p.isEmpty
  | c :: t => p.isPrefixOf (c :: t) || listInfixOf p t

/-- JavaScript `s.includes(pattern)`. -/
def strIncludes (s pattern : String) : Bool := listInfixOf pattern.data s.data

/-- `shouldRetry` of OvhClient: false once `attempt >= maxAttempts`;
otherwise an `OvhApiError`'s own `retryable` flag, and for a raw error the
TypeError-or-network heuristic. -/
def shouldRetry (error : ThrownError) (attempt maxAttempts : Nat) : Bool :=
  if maxAttempts ≤ attempt then false
  else match error with
    | .api e => e.retryable
    | .js name message => name == "TypeError" || strIncludes message "network"

/-- The `retryable` part of `shouldRetry`, independent of the attempt
bound. -/
def thrownRetryable : ThrownError → Bool
  | .api e => e.retryable
  | .js name message => name == "TypeError" || strIncludes message "network"

theorem shouldRetry_eq (error : ThrownError) (attempt maxAttempts : Nat) :
    shouldRetry error attempt maxAttempts =
      (decide (attempt < maxAttempts) && thrownRetryable error) := by
  by_cases h : attempt < maxAttempts
  · cases error with
    | api e => simp [shouldRetry, thrownRetryable, h, Nat.not_le.mpr h]
    | js n m => simp [shouldRetry, thrownRetryable, h, Nat.not_le.mpr h]
  · have hle : maxAttempts ≤ attempt := Nat.le_of_not_lt h
    cases error with
    | api e => simp [shouldRetry, thrownRetryable, h, hle]
    | js n m => simp [shouldRetry, thrownRetryable, h, hle]

/-- What `executeRequest` yields on success: parsed data (opaque), HTTP
status and response headers. -/
structure ExecResponse where
  data : String
  status : Nat
  headers : List (String × String)
deriving DecidableEq, Repr

/-- Outcome of `authProvider.getHeaders`: headers, a thrown `AuthError`,
or some other thrown error (rethrown raw by the executor). -/
inductive AuthOutcome where
  | headers (h : List (String × String))
  | authError (message : String)
  | otherThrow (name msg : String)
deriving DecidableEq, Repr

instance : DecidableEq (Except String String) := fun a b =>
  match a, b with
  | .ok x, .ok y =>
    if h : x = y then isTrue (by rw [h]) else isFalse (fun hh => h (Except.ok.inj hh))
  | .ok _, .error _ => isFalse (fun hh => Except.noConfusion hh)
  | .error _, .ok _ => isFalse (fun hh => Except.noConfusion hh)
  | .error x, .error y =>
    if h : x = y then isTrue (by rw [h]) else isFalse (fun hh => h (Except.error.inj hh))

/-- A completed `fetch` response: `ok` flag, status, `text()` body for the
error path, `json()` outcome for the success path (`Except.error` carries
the SyntaxError message when the body is not valid JSON), and response
headers. -/
structure FetchResponse where
  ok : Bool
  status : Nat
  text : String
  jsonData : Except String String
  respHeaders : List (String × String)
deriving DecidableEq, Repr

/-- Outcome of the `fetch` call: a completed response, or a rejection with
an error name and message (name "AbortError" is the timeout abort). -/
inductive FetchOutcome where
  | completed (r : FetchResponse)
  | threw (name msg : String)
deriving DecidableEq, Repr

/-- `executeRequest`: wrap an `AuthError` as a non-retryable 401
permission-denied `OvhApiError` and rethrow other auth failures raw; then
run the fetch under the timeout: non-2xx bodies go through
`parseOvhError`, an abort becomes `TimeoutError`, and any other thrown
error — including the SyntaxError from `response.json()` on a 2xx
response whose body is not valid JSON — becomes a retryable NETWORK_ERROR
`OvhApiError` with httpStatus 0.  Header assembly does not influence the
modelled outcome and the timer disarm has no observable effect. -/
def executeRequest (auth : AuthOutcome) (fetchOutcome : FetchOutcome)
    (jsonParse : String → Option OvhErrorResponse) (timeoutMs : Nat) :
    Except ThrownError ExecResponse :=
  match auth with
  | .authError message =>
    Except.error (.api ⟨message, 401, some "AUTH_ERROR", .PERMISSION_DENIED, false⟩)
  | .otherThrow name msg => Except.error (.js name msg)
  | .headers _ =>
    match fetchOutcome with
    | .completed r =>
      if !r.ok then
        Except.error (.api (parseOvhError jsonParse r.status (.str r.text)))
      else
        match r.jsonData with
        | .ok d => Except.ok ⟨d, r.status, r.respHeaders⟩
        | .error m =>
          Except.error (.api ⟨"Erreur réseau: " ++ m, 0, some "NETWORK_ERROR",
            .INTERNAL_ERROR, true⟩)
    | .threw name msg =>
      if name == "AbortError" then
        Except.error (.api (TimeoutError timeoutMs))
      else
        Except.error (.api ⟨"Erreur réseau: " ++ msg, 0, some "NETWORK_ERROR",
          .INTERNAL_ERROR, true⟩)

/-- The attempt loop of `OvhClient.request`, with `fuel` remaining loop
iterations (initially `maxAttempts`, so fuel exhaustion matches the `for`
bound).  Returns the outcome (`Except.error none` is the `throw lastError`
with a null `lastError`, reachable only if the loop never ran) together
with the number of executor invocations. -/
def requestGo (exec : Nat → Except ThrownError ExecResponse) (maxAttempts : Nat) :
    Nat → Nat → Option ThrownError →
    Except (Option ThrownError) ExecResponse × Nat
  | _, 0, lastError => (Except.error lastError, 0)
  | attempt, fuel + 1, _ =>
    match exec attempt with
    | .ok r => (Except.ok r, 1)
    | .error e =>
      if shouldRetry e attempt maxAttempts then
        let rest := requestGo exec maxAttempts (attempt + 1) fuel (some e)
        (rest.1, rest.2 + 1)
      else (Except.error (some e), 1)

/-- `OvhClient.request`: rate limiting first (unless `skipRateLimit`),
then `maxAttempts = skipRetry ? 1 : maxRetries + 1` executor attempts.
Returns the outcome, the rate limiter's bucket state afterwards, and the
number of executor invocations. -/
def ovhRequest (limiterConfig : RateLimiterConfig) (limiter : BucketState)
    (now1 now2 : ℚ) (skipRateLimit skipRetry : Bool)
    (exec : Nat → Except ThrownError ExecResponse) (maxRetries : Nat) :
    Except (Option ThrownError) ExecResponse × BucketState × Nat :=
  let maxAttempts := if skipRetry then 1 else maxRetries + 1
  if skipRateLimit then
    let r := requestGo exec maxAttempts 1 maxAttempts none
    (r.1, limiter, r.2)
  else
    match acquire limiterConfig now1 now2 true limiter with
    | (Except.error e, s2) => (Except.error (some (.api e)), s2, 0)
    | (Except.ok _, s2) =>
      let r := requestGo exec maxAttempts 1 maxAttempts none
      (r.1, s2, r.2)

/-- An executor that always fails with a retryable error is invoked once
per remaining loop iteration: the loop never breaks early. -/
theorem requestGo_all_fail (exec : Nat → Except ThrownError ExecResponse)
    (M : Nat) (hfail : ∀ n, ∃ e, exec n = Except.error e ∧ thrownRetryable e = true) :
    ∀ fuel attempt last, attempt + fuel = M + 1 → 1 ≤ fuel →
      (requestGo exec M attempt fuel last).2 = fuel := by
  intro fuel
  induction fuel with
  | zero => intro attempt last _ h1; omega
  | succ f ih =>
    intro attempt last hsum _
    obtain ⟨e, he, hr⟩ := hfail attempt
    by_cases hf : f = 0
    · subst hf
      have : shouldRetry e attempt M = false := by
        rw [shouldRetry_eq, hr]
        have : attempt = M := by omega
        simp [this]
      simp [requestGo, he, this]
    · have hlt : attempt < M := by omega
      have : shouldRetry e attempt M = true := by
        rw [shouldRetry_eq, hr]
        simp [hlt]
      have hrest := ih (attempt + 1) (some e) (by omega) (by omega)
      simp [requestGo, he, this, hrest]

/-- C4: with `skipRetry` the executor runs exactly once regardless of
`maxRetries`; a successful first attempt returns immediately after one
invocation; an executor that always fails with a retryable error is
invoked exactly `maxRetries + 1` times (3 when `maxRetries = 2`); and
after a failure the controller retries exactly when the attempt number is
strictly below `maxRetries + 1` and the thrown error's retryable flag is
set. -/
theorem claim_C4_retry_bounds (limiterConfig : RateLimiterConfig)
    (limiter : BucketState) (now1 now2 : ℚ)
    (exec : Nat → Except ThrownError ExecResponse) (maxRetries : Nat) :
    ((ovhRequest limiterConfig limiter now1 now2 true true exec maxRetries).2.2 = 1) ∧
    (∀ r, exec 1 = Except.ok r →
      ovhRequest limiterConfig limiter now1 now2 true false exec maxRetries =
        (Except.ok r, limiter, 1)) ∧
    ((∀ n, ∃ e, exec n = Except.error e ∧ thrownRetryable e = true) →
      (ovhRequest limiterConfig limiter now1 now2 true false exec maxRetries).2.2 =
        maxRetries + 1) ∧
    ((∀ n, ∃ e, exec n = Except.error e ∧ thrownRetryable e = true) → maxRetries = 2 →
      (ovhRequest limiterConfig limiter now1 now2 true false exec maxRetries).2.2 = 3) ∧
    (∀ (e : OvhApiError) (attempt : Nat),
      shouldRetry (.api e) attempt (maxRetries + 1) =
        (decide (attempt < maxRetries + 1) && e.retryable)) := by
  have hallfail : (∀ n, ∃ e, exec n = Except.error e ∧ thrownRetryable e = true) →
      (ovhRequest limiterConfig limiter now1 now2 true false exec maxRetries).2.2 =
        maxRetries + 1 := by
    intro hfail
    have := requestGo_all_fail exec (maxRetries + 1) hfail (maxRetries + 1) 1 none
      (by omega) (by omega)
    simpa [ovhRequest] using this
  refine ⟨?_, ?_, hallfail, ?_, ?_⟩
  · match h : exec 1 with
    | .ok r => simp [ovhRequest, requestGo, h]
    | .error e =>
      have : shouldRetry e 1 1 = false := by
        rw [shouldRetry_eq]
        simp
      simp [ovhRequest, requestGo, h, this]
  · intro r hr
    simp [ovhRequest, requestGo, hr]
  · intro hfail hm
    rw [hallfail hfail, hm]
  · intro e attempt
    exact shouldRetry_eq (.api e) attempt (maxRetries + 1)

/-- Witness for C4: a retryable always-failing executor with
`maxRetries = 2` is invoked 3 times; a succeeding executor once; with
`skipRetry` once; and the retry predicate evaluated at attempt 1. -/
theorem claim_C4_retry_bounds_witness :
    ((ovhRequest ⟨30, 1/2, some 5000⟩ ⟨30, 0⟩ 0 0 true false
        (fun _ => Except.error (.api ⟨"boom", 500, none, .INTERNAL_ERROR, true⟩)) 2).2.2
      = 3) ∧
    (ovhRequest ⟨30, 1/2, some 5000⟩ ⟨30, 0⟩ 0 0 true false
        (fun _ => Except.ok ⟨"d", 200, []⟩) 2 =
      (Except.ok ⟨"d", 200, []⟩, ⟨30, 0⟩, 1)) ∧
    ((ovhRequest ⟨30, 1/2, some 5000⟩ ⟨30, 0⟩ 0 0 true true
        (fun _ => Except.error (.api ⟨"boom", 500, none, .INTERNAL_ERROR, true⟩)) 7).2.2
      = 1) ∧
    (shouldRetry (.api ⟨"boom", 500, none, .INTERNAL_ERROR, true⟩) 1 3 =
      (decide (1 < 3) && true)) :=
  ⟨(claim_C4_retry_bounds ⟨30, 1/2, some 5000⟩ ⟨30, 0⟩ 0 0
      (fun _ => Except.error (.api ⟨"boom", 500, none, .INTERNAL_ERROR, true⟩)) 2).2.2.2.1
      (fun n => ⟨.api ⟨"boom", 500, none, .INTERNAL_ERROR, true⟩, rfl, rfl⟩) rfl,
   (claim_C4_retry_bounds ⟨30, 1/2, some 5000⟩ ⟨30, 0⟩ 0 0
      (fun _ => Except.ok ⟨"d", 200, []⟩) 2).2.1 ⟨"d", 200, []⟩ rfl,
   (claim_C4_retry_bounds ⟨30, 1/2, some 5000⟩ ⟨30, 0⟩ 0 0
      (fun _ => Except.error (.api ⟨"boom", 500, none, .INTERNAL_ERROR, true⟩)) 7).1,
   (claim_C4_retry_bounds ⟨30, 1/2, some 5000⟩ ⟨30, 0⟩ 0 0
      (fun _ => Except.ok ⟨"d", 200, []⟩) 2).2.2.2.2
      ⟨"boom", 500, none, .INTERNAL_ERROR, true⟩ 1⟩

/-- C10: on a 2xx response whose body is not valid JSON, `executeRequest`
throws an `OvhApiError` with httpStatus 0, code NETWORK_ERROR and
retryable=true — the same classification as a transport failure with the
same message — and returns no partial response data. -/
theorem claim_C10_invalid_json_2xx (h : List (String × String))
    (r : FetchResponse) (jsonParse : String → Option OvhErrorResponse)
    (timeoutMs : Nat) (m : String)
    (hok : r.ok = true) (hjson : r.jsonData = Except.error m) :
    executeRequest (.headers h) (.completed r) jsonParse timeoutMs =
      Except.error (.api ⟨"Erreur réseau: " ++ m, 0, some "NETWORK_ERROR",
        .INTERNAL_ERROR, true⟩) ∧
    (∀ name, name ≠ "AbortError" →
      executeRequest (.headers h) (.threw name m) jsonParse timeoutMs =
        executeRequest (.headers h) (.completed r) jsonParse timeoutMs) := by
  constructor
  · simp [executeRequest, hok, hjson]
  · intro name hn
    simp [executeRequest, hok, hjson, hn]

/-- Witness for C10: a 200 response with body text that fails JSON
parsing. -/
theorem claim_C10_invalid_json_2xx_witness :
    executeRequest (.headers [("Authorization", "Bearer t")])
        (.completed ⟨true, 200, "<html>", Except.error "Unexpected token <", []⟩)
        (fun _ => none) 30000 =
      Except.error (.api ⟨"Erreur réseau: Unexpected token <", 0,
        some "NETWORK_ERROR", .INTERNAL_ERROR, true⟩) ∧
    executeRequest (.headers [("Authorization", "Bearer t")])
        (.threw "TypeError" "Unexpected token <") (fun _ => none) 30000 =
      executeRequest (.headers [("Authorization", "Bearer t")])
        (.completed ⟨true, 200, "<html>", Except.error "Unexpected token <", []⟩)
        (fun _ => none) 30000 :=
  ⟨(claim_C10_invalid_json_2xx [("Authorization", "Bearer t")]
      ⟨true, 200, "<html>", Except.error "Unexpected token <", []⟩
      (fun _ => none) 30000 "Unexpected token <" rfl rfl).1,
   (claim_C10_invalid_json_2xx [("Authorization", "Bearer t")]
      ⟨true, 200, "<html>", Except.error "Unexpected token <", []⟩
      (fun _ => none) 30000 "Unexpected token <" rfl rfl).2 "TypeError" (by decide)⟩

/-- `acquire` either grants a token or throws some `RateLimitError`. -/
theorem acquire_cases (config : RateLimiterConfig) (now1 now2 : ℚ) (w : Bool)
    (s : BucketState) :
    (∃ b s2, acquire config now1 now2 w s = (Except.ok b, s2)) ∨
    (∃ msg s2, acquire config now1 now2 w s =
      (Except.error (RateLimitError msg), s2)) := by
  unfold acquire
  dsimp only
  repeat' split
  all_goals first
    | exact Or.inl ⟨true, _, rfl⟩
    | exact Or.inr ⟨_, _, rfl⟩

/-- Every error `acquire` throws is a `RateLimitError`: code RATE_LIMIT,
MCP code RATE_LIMITED, httpStatus 0. -/
theorem acquire_error_is_rate_limit (config : RateLimiterConfig)
    (now1 now2 : ℚ) (w : Bool) (s : BucketState) (e : OvhApiError)
    (s2 : BucketState) (h : acquire config now1 now2 w s = (Except.error e, s2)) :
    e.ovhErrorCode = some "RATE_LIMIT" ∧ e.mcpErrorCode = .RATE_LIMITED ∧
    e.httpStatus = 0 ∧ e.retryable = true := by
  rcases acquire_cases config now1 now2 w s with ⟨b, s3, hb⟩ | ⟨msg, s3, hm⟩
  · rw [hb] at h
    simp at h
  · rw [hm] at h
    simp only [Prod.mk.injEq] at h
    obtain ⟨h1, -⟩ := h
    obtain rfl := Except.error.inj h1
    exact ⟨rfl, rfl, rfl, rfl⟩

/-- C9 counterexample: a verb call that does not skip rate limiting can
throw before the retry controller runs — the rate limiter raises a
`RateLimitError` with zero executor invocations (limiter with an empty
bucket and falsy `maxWaitMs`, a configuration the facade accepts) — and a
successful call mutates client-local state: the bucket loses a token. -/
theorem claim_C9_counterexample :
    (ovhRequest ⟨0, 1/2, some 0⟩ ⟨0, 1000⟩ 1000 1000 false false
        (fun _ => Except.ok ⟨"ok", 200, []⟩) 2 =
      (Except.error (some (.api (RateLimitError "Rate limit atteint, réessayez plus tard"))),
       ⟨0, 1000⟩, 0)) ∧
    ((ovhRequest ⟨1, 1/2, some 5000⟩ ⟨1, 1000⟩ 1000 1000 false false
        (fun _ => Except.ok ⟨"ok", 200, []⟩) 2).2.1 ≠ ⟨1, 1000⟩) ∧
    ((ovhRequest ⟨1, 1/2, some 5000⟩ ⟨1, 1000⟩ 1000 1000 false false
        (fun _ => Except.ok ⟨"ok", 200, []⟩) 2).2.1 = ⟨0, 1000⟩) := by
  have hacq1 : acquire ⟨0, 1/2, some 0⟩ 1000 1000 true ⟨0, 1000⟩ =
      (Except.error (RateLimitError "Rate limit atteint, réessayez plus tard"),
       ⟨0, 1000⟩) := by
    simp [acquire, refill, jsTruthyNum]
  have hacq2 : acquire ⟨1, 1/2, some 5000⟩ 1000 1000 true ⟨1, 1000⟩ =
      (Except.ok true, ⟨0, 1000⟩) := by
    simp [acquire, refill, jsTruthyNum]
  refine ⟨?_, ?_, ?_⟩
  · unfold ovhRequest
    rw [hacq1]
    rfl
  · unfold ovhRequest
    rw [hacq2]
    simp
  · unfold ovhRequest
    rw [hacq2]
    rfl

/-- C9 (amended): a verb call with `skipRateLimit` set mutates no
client-local state and yields exactly the retry controller's outcome;
without `skipRateLimit` the token-bucket limiter is consulted first,
which always mutates the bucket (via `refill`/consumption) and, when it
cannot grant a token, throws a `RateLimitError` before any executor
invocation; when it does grant one, the retry controller's outcome is
returned alongside the consumed-token bucket state. -/
theorem claim_C9_amended (limiterConfig : RateLimiterConfig)
    (limiter : BucketState) (now1 now2 : ℚ) (skipRetry : Bool)
    (exec : Nat → Except ThrownError ExecResponse) (maxRetries : Nat) :
    ((ovhRequest limiterConfig limiter now1 now2 true skipRetry exec maxRetries).2.1 =
      limiter ∧
     (ovhRequest limiterConfig limiter now1 now2 true skipRetry exec maxRetries).1 =
      (requestGo exec (if skipRetry then 1 else maxRetries + 1) 1
        (if skipRetry then 1 else maxRetries + 1) none).1) ∧
    (∀ e s2, acquire limiterConfig now1 now2 true limiter = (Except.error e, s2) →
      ovhRequest limiterConfig limiter now1 now2 false skipRetry exec maxRetries =
        (Except.error (some (.api e)), s2, 0) ∧
      e.ovhErrorCode = some "RATE_LIMIT") ∧
    (∀ b s2, acquire limiterConfig now1 now2 true limiter = (Except.ok b, s2) →
      (ovhRequest limiterConfig limiter now1 now2 false skipRetry exec maxRetries).2.1 =
        s2 ∧
      (ovhRequest limiterConfig limiter now1 now2 false skipRetry exec maxRetries).1 =
        (requestGo exec (if skipRetry then 1 else maxRetries + 1) 1
          (if skipRetry then 1 else maxRetries + 1) none).1) := by
  refine ⟨⟨by simp [ovhRequest], by simp [ovhRequest]⟩, ?_, ?_⟩
  · intro e s2 h
    refine ⟨by simp [ovhRequest, h], ?_⟩
    exact (acquire_error_is_rate_limit limiterConfig now1 now2 true limiter e s2 h).1
  · intro b s2 h
    exact ⟨by simp [ovhRequest, h], by simp [ovhRequest, h]⟩

/-- Witness for the amended C9: the three branches at concrete inputs. -/
theorem claim_C9_amended_witness :
    ((ovhRequest ⟨0, 1/2, some 0⟩ ⟨0, 1000⟩ 1000 1000 true false
        (fun _ => Except.ok ⟨"ok", 200, []⟩) 2).2.1 = ⟨0, 1000⟩) ∧
    (ovhRequest ⟨0, 1/2, some 0⟩ ⟨0, 1000⟩ 1000 1000 false false
        (fun _ => Except.ok ⟨"ok", 200, []⟩) 2 =
      (Except.error (some (.api (RateLimitError "Rate limit atteint, réessayez plus tard"))),
       ⟨0, 1000⟩, 0)) ∧
    ((ovhRequest ⟨1, 1/2, some 5000⟩ ⟨1, 1000⟩ 1000 1000 false false
        (fun _ => Except.ok ⟨"ok", 200, []⟩) 2).2.1 = ⟨0, 1000⟩) :=
  ⟨(claim_C9_amended ⟨0, 1/2, some 0⟩ ⟨0, 1000⟩ 1000 1000 false
      (fun _ => Except.ok ⟨"ok", 200, []⟩) 2).1.1,
   ((claim_C9_amended ⟨0, 1/2, some 0⟩ ⟨0, 1000⟩ 1000 1000 false
      (fun _ => Except.ok ⟨"ok", 200, []⟩) 2).2.1
      (RateLimitError "Rate limit atteint, réessayez plus tard") ⟨0, 1000⟩
      (by simp [acquire, refill, jsTruthyNum, RateLimitError])).1,
   ((claim_C9_amended ⟨1, 1/2, some 5000⟩ ⟨1, 1000⟩ 1000 1000 false
      (fun _ => Except.ok ⟨"ok", 200, []⟩) 2).2.2 true ⟨0, 1000⟩
      (by simp [acquire, refill, jsTruthyNum])).1⟩

/-! ## Concurrent token refresh — oauth2ServiceAccount.ts `getValidToken`

Interleaving model of N concurrent `getHeaders`/`getValidToken` callers on
one provider instance.  JavaScript's event loop runs each code segment
between `await` points atomically, so `getValidToken` decomposes into:

* `enter`: the synchronous prefix — check the cached token; if a refresh
  promise is stored, await it (join); otherwise call `refreshToken()`
  (which synchronously issues the token fetch, counted in `fetchCount`)
  and store the promise (owner);
* `resolve`: the continuation of `refreshToken` when the fetch completes —
  cache the token and resolve the stored promise;
* `settle`: a caller's `await` of the promise completes — the owner's
  `finally` also clears `tokenRefreshPromise`.

The model covers one refresh generation: `resolve` carries the single
fetched token `tok` with lifetime `expiresIn` seconds from `nowMs`. -/

/-- Where one concurrent caller stands in `getValidToken`. -/
inductive CallerPC where
  | ready
  | awaitingOwner
  | awaitingJoin
  | done (token : String)
deriving DecidableEq, Repr

/-- Shared provider state plus the callers' program counters. -/
structure RefreshSys where
  cachedToken : Option CachedToken
  promise : Bool
  resolved : Option String
  fetchCount : Nat
  callers : List CallerPC
deriving DecidableEq, Repr

/-- Scheduler events. -/
inductive RefreshEv where
  | enter (i : Nat)
  | resolve
  | settle (i : Nat)
deriving DecidableEq, Repr

/-- One atomic step of the interleaving; `none` when the event is not
enabled in the given state. -/
def refreshStep (nowMs : Int) (tok : String) (expiresIn : Int)
    (s : RefreshSys) (ev : RefreshEv) : Option RefreshSys :=
  match ev with
  | .enter i =>
    match s.callers[i]? with
    | some .ready =>
      match s.cachedToken with
      | some t =>
        if isTokenValid nowMs t then
          some { s with callers := s.callers.set i (.done t.accessToken) }
        else if s.promise then
          some { s with callers := s.callers.set i .awaitingJoin }
        else
          some { s with promise := true, fetchCount := s.fetchCount + 1,
                        callers := s.callers.set i .awaitingOwner }
      | none =>
        if s.promise then
          some { s with callers := s.callers.set i .awaitingJoin }
        else
          some { s with promise := true, fetchCount := s.fetchCount + 1,
                        callers := s.callers.set i .awaitingOwner }
    | _ => none
  | .resolve =>
    if s.promise && s.resolved.isNone then
      some { s with cachedToken := some ⟨tok, nowMs + expiresIn * 1000⟩,
                    resolved := some tok }
    else none
  | .settle i =>
    match s.callers[i]?, s.resolved with
    | some .awaitingOwner, some t =>
      some { s with callers := s.callers.set i (.done t), promise := false }
    | some .awaitingJoin, some t =>
      some { s with callers := s.callers.set i (.done t) }
    | _, _ => none

/-- Run a trace of events from a state. -/
def refreshRun (nowMs : Int) (tok : String) (expiresIn : Int) :
    RefreshSys → List RefreshEv → Option RefreshSys
  | s, [] => some s
  | s, ev :: rest =>
    match refreshStep nowMs tok expiresIn s ev with
    | none => none
    | some s2 => refreshRun nowMs tok expiresIn s2 rest

/-- N callers, no cached token, no refresh in flight. -/
def refreshInit (n : Nat) : RefreshSys :=
  ⟨none, false, none, 0, List.replicate n .ready⟩

/-- Reachability invariant of the refresh system: before the resolve there
is no cached token and the fetch count tracks the stored promise; after it
the cache holds exactly the fetched token and the count is one; every
finished caller got the fetched token. -/
def RefreshInv (nowMs : Int) (tok : String) (expiresIn : Int)
    (s : RefreshSys) : Prop :=
  (s.resolved = none → s.cachedToken = none ∧
    s.fetchCount = (if s.promise then 1 else 0)) ∧
  (∀ t, s.resolved = some t → t = tok ∧
    s.cachedToken = some ⟨tok, nowMs + expiresIn * 1000⟩ ∧ s.fetchCount = 1) ∧
  (∀ (i : Nat) (t : String),
    s.callers[i]? = some (CallerPC.done t) → t = tok ∧ s.resolved = some tok)

theorem margin_valid (nowMs : Int) (tok : String) (expiresIn : Int)
    (hm : 60000 < expiresIn * 1000) :
    isTokenValid nowMs ⟨tok, nowMs + expiresIn * 1000⟩ = true := by
  simp [isTokenValid, TOKEN_REFRESH_MARGIN_MS]
  omega

theorem refreshStep_inv (nowMs : Int) (tok : String) (expiresIn : Int)
    (hm : 60000 < expiresIn * 1000) (s s2 : RefreshSys) (ev : RefreshEv)
    (hinv : RefreshInv nowMs tok expiresIn s)
    (h : refreshStep nowMs tok expiresIn s ev = some s2) :
    RefreshInv nowMs tok expiresIn s2 := by
  obtain ⟨hA, hB, hC⟩ := hinv
  cases ev with
  | enter i =>
    simp only [refreshStep] at h
    split at h
    case _ hpc =>
      split at h
      case _ t hcache =>
        split at h
        case isTrue hvalid =>
          obtain rfl := Option.some.inj h
          rcases Option.eq_none_or_eq_some s.resolved with hres | ⟨rt, hres⟩
          · exact absurd (hA hres).1 (by simp [hcache])
          · obtain ⟨rfl, hcc, hfc⟩ := hB rt hres
            rw [hcache] at hcc
            obtain rfl := Option.some.inj hcc
            refine ⟨?_, ?_, ?_⟩ <;> dsimp only
            · intro hr
              rw [hres] at hr
              exact Option.noConfusion hr
            · intro u hu
              exact hB u hu
            · intro j u hj
              rw [List.getElem?_set] at hj
              split at hj
              · split at hj
                · obtain rfl : u = rt := (CallerPC.done.inj (Option.some.inj hj)).symm
                  exact ⟨rfl, hres⟩
                · exact Option.noConfusion hj
              · exact hC j u hj
        case isFalse hvalid =>
          rcases Option.eq_none_or_eq_some s.resolved with hres | ⟨rt, hres⟩
          · exact absurd (hA hres).1 (by simp [hcache])
          · obtain ⟨rfl, hcc, hfc⟩ := hB rt hres
            rw [hcache] at hcc
            obtain rfl := Option.some.inj hcc
            exact absurd (margin_valid nowMs rt expiresIn hm) (by simp [hvalid])
      case _ hcache =>
        rcases Option.eq_none_or_eq_some s.resolved with hres | ⟨rt, hres⟩
        swap
        · exact absurd (hB rt hres).2.1 (by simp [hcache])
        · split at h
          case isTrue hpr =>
            obtain rfl := Option.some.inj h
            refine ⟨?_, ?_, ?_⟩ <;> dsimp only
            · intro hr
              exact ⟨hcache, (hA hres).2⟩
            · intro u hu
              rw [hres] at hu
              exact Option.noConfusion hu
            · intro j u hj
              rw [List.getElem?_set] at hj
              split at hj
              · split at hj
                · exact absurd (Option.some.inj hj) (by simp)
                · exact Option.noConfusion hj
              · exact hC j u hj
          case isFalse hpr =>
            obtain rfl := Option.some.inj h
            have hprf : s.promise = false := by simpa using hpr
            have hfc0 : s.fetchCount = 0 := by
              have h2 := (hA hres).2
              rw [hprf] at h2
              simpa using h2
            refine ⟨?_, ?_, ?_⟩ <;> dsimp only
            · intro hr
              exact ⟨hcache, by simp [hfc0]⟩
            · intro u hu
              rw [hres] at hu
              exact Option.noConfusion hu
            · intro j u hj
              rw [List.getElem?_set] at hj
              split at hj
              · split at hj
                · exact absurd (Option.some.inj hj) (by simp)
                · exact Option.noConfusion hj
              · rw [hres] at hC
                exact absurd (hC j u hj).2 (by simp)
    case _ hne =>
      exact Option.noConfusion h
  | resolve =>
    simp only [refreshStep] at h
    split at h
    case isTrue hcond =>
      obtain ⟨hpr, hrn⟩ : s.promise = true ∧ s.resolved.isNone = true := by
        simpa using hcond
      have hres : s.resolved = none := by
        rcases Option.eq_none_or_eq_some s.resolved with hr2 | ⟨rt, hr2⟩
        · exact hr2
        · rw [hr2] at hrn
          exact absurd hrn (by simp)
      obtain rfl := Option.some.inj h
      have hfc : s.fetchCount = 1 := by
        have h2 := (hA hres).2
        rw [hpr] at h2
        simpa using h2
      refine ⟨?_, ?_, ?_⟩ <;> dsimp only
      · intro hr
        exact Option.noConfusion hr
      · intro u hu
        obtain rfl : u = tok := (Option.some.inj hu).symm
        exact ⟨rfl, rfl, hfc⟩
      · intro j u hj
        rw [hres] at hC
        exact absurd (hC j u hj).2 (by simp)
    case isFalse =>
      exact Option.noConfusion h
  | settle i =>
    simp only [refreshStep] at h
    split at h
    case _ t hpc hres =>
      obtain ⟨rfl, hcc, hfc⟩ := hB t hres
      obtain rfl := Option.some.inj h
      refine ⟨?_, ?_, ?_⟩ <;> dsimp only
      · intro hr
        rw [hres] at hr
        exact Option.noConfusion hr
      · intro u hu
        exact hB u hu
      · intro j u hj
        rw [List.getElem?_set] at hj
        split at hj
        · split at hj
          · obtain rfl : u = t := (CallerPC.done.inj (Option.some.inj hj)).symm
            exact ⟨rfl, hres⟩
          · exact Option.noConfusion hj
        · exact hC j u hj
    case _ t hpc hres =>
      obtain ⟨rfl, hcc, hfc⟩ := hB t hres
      obtain rfl := Option.some.inj h
      refine ⟨?_, ?_, ?_⟩ <;> dsimp only
      · intro hr
        rw [hres] at hr
        exact Option.noConfusion hr
      · intro u hu
        exact hB u hu
      · intro j u hj
        rw [List.getElem?_set] at hj
        split at hj
        · split at hj
          · obtain rfl : u = t := (CallerPC.done.inj (Option.some.inj hj)).symm
            exact ⟨rfl, hres⟩
          · exact Option.noConfusion hj
        · exact hC j u hj
    case _ =>
      exact Option.noConfusion h



theorem refreshInit_inv (nowMs : Int) (tok : String) (expiresIn : Int)
    (n : Nat) : RefreshInv nowMs tok expiresIn (refreshInit n) := by
  refine ⟨fun _ => ⟨rfl, rfl⟩, ?_, ?_⟩
  · intro t ht
    exact Option.noConfusion ht
  · intro i t hi
    simp only [refreshInit] at hi
    rw [List.getElem?_replicate] at hi
    split at hi
    · exact CallerPC.noConfusion (Option.some.inj hi)
    · exact Option.noConfusion hi

theorem refreshRun_inv (nowMs : Int) (tok : String) (expiresIn : Int)
    (hm : 60000 < expiresIn * 1000) :
    ∀ (trace : List RefreshEv) (s s2 : RefreshSys),
      RefreshInv nowMs tok expiresIn s →
      refreshRun nowMs tok expiresIn s trace = some s2 →
      RefreshInv nowMs tok expiresIn s2 := by
  intro trace
  induction trace with
  | nil =>
    intro s s2 hinv h
    obtain rfl := Option.some.inj h
    exact hinv
  | cons ev rest ih =>
    intro s s2 hinv h
    simp only [refreshRun] at h
    match hst : refreshStep nowMs tok expiresIn s ev with
    | none =>
      rw [hst] at h
      exact Option.noConfusion h
    | some s1 =>
      rw [hst] at h
      exact ih s1 s2 (refreshStep_inv nowMs tok expiresIn hm s s1 ev hinv hst) h

/-- C1: in every interleaving of any number of concurrent
`getValidToken` callers starting from a provider with no cached token and
no refresh in flight, at most one token-fetch network call is ever made,
and every caller that completes got exactly the one fetched token (so any
completed caller implies the fetch count is exactly one). -/
theorem claim_C1_single_flight (nowMs : Int) (tok : String) (expiresIn : Int)
    (n : Nat) (hm : 60000 < expiresIn * 1000) (trace : List RefreshEv)
    (s : RefreshSys)
    (h : refreshRun nowMs tok expiresIn (refreshInit n) trace = some s) :
    s.fetchCount ≤ 1 ∧
    (∀ (i : Nat) (t : String), s.callers[i]? = some (CallerPC.done t) →
      t = tok ∧ s.fetchCount = 1) := by
  obtain ⟨hA, hB, hC⟩ :=
    refreshRun_inv nowMs tok expiresIn hm trace (refreshInit n) s
      (refreshInit_inv nowMs tok expiresIn n) h
  constructor
  · rcases Option.eq_none_or_eq_some s.resolved with hres | ⟨rt, hres⟩
    · have h2 := (hA hres).2
      rw [h2]
      split <;> omega
    · exact le_of_eq (hB rt hres).2.2
  · intro i t hi
    obtain ⟨rfl, hres⟩ := hC i t hi
    exact ⟨rfl, (hB t hres).2.2⟩

/-- Witness for C1: two concurrent callers, both entering before the fetch
resolves — the run completes with fetch count 1 and both callers holding
the fetched token. -/
theorem claim_C1_single_flight_witness :
    (RefreshSys.mk (some ⟨"T", 3600000⟩) false (some "T") 1
        [CallerPC.done "T", CallerPC.done "T"]).fetchCount ≤ 1 ∧
    ("T" = "T" ∧ (RefreshSys.mk (some ⟨"T", 3600000⟩) false (some "T") 1
        [CallerPC.done "T", CallerPC.done "T"]).fetchCount = 1) :=
  ⟨(claim_C1_single_flight 0 "T" 3600 2 (by decide)
      [.enter 0, .enter 1, .resolve, .settle 0, .settle 1] _ rfl).1,
   (claim_C1_single_flight 0 "T" 3600 2 (by decide)
      [.enter 0, .enter 1, .resolve, .settle 0, .settle 1] _ rfl).2 0 "T" rfl⟩

end OvhSpec
